import Mathlib

/-!
Verification development for the invoice-processing backend (src/main.py).

The service exposes one endpoint, POST /api/process-document, which reads the
uploaded file once, parses the metadata form field as JSON, and then runs two
operations over the same byte buffer: field extraction via an external
recognition model (process_invoice) and first-page rendering (extract_first_page).
We shallowly embed the request-level data flow.  The external effects — the
recognition call, the JSON parser, and the PDF rendering library — are modelled
by their outcomes, supplied as inputs to the embedded functions; everything the
Python code itself computes is translated directly.
-/

namespace InvoiceBackend

/-- A recognized field as the code observes it: the code probes the optional
attributes value_string, value_date and content (hasattr plus a None check,
which collapse to a single Option here) and copies confidence verbatim.
Confidence is a numeric value never computed with, modelled as a rational. -/
structure DocField where
  value_string : Option String
  value_date : Option String
  content : Option String
  confidence : Rat
deriving Repr, DecidableEq

/-- One document of the analysis result; fields is the field dictionary,
modelled as an association list keyed by the native field name. -/
structure AnalyzedDocument where
  fields : List (String × DocField)
deriving Repr, DecidableEq

/-- The analysis result returned by the recognition poller.  A missing or empty
documents attribute behaves exactly like the empty list in the code
(the for loop body never runs), so documents is a list. -/
structure AnalyzeResult where
  documents : List AnalyzedDocument
deriving Repr, DecidableEq

/-- An output pair {"value": ..., "confidence": ...} as built by process_invoice. -/
structure FieldResult where
  value : Option String
  confidence : Rat
deriving Repr, DecidableEq

/-- field_mapping from src/main.py lines 125-129, in Python dict insertion order. -/
def field_mapping : List (String × String) :=
  [("InvoiceId", "PV Number"),
   ("InvoiceDate", "Date Prepared"),
   ("RemittanceAddressRecipient", "Supplier or Company")]

/-- document_data after lines 132-143: the constant Document Type entry followed
by the three defaulted mapped fields, in assignment order. -/
def initData : List (String × FieldResult) :=
  [("Document Type", ⟨some "Payable Voucher", 1⟩),
   ("PV Number", ⟨none, 0⟩),
   ("Supplier or Company", ⟨none, 0⟩),
   ("Date Prepared", ⟨none, 0⟩)]

/-- Value extraction for one field, lines 158-166: prefer value_string, else
str(value_date), else content, else None.  value_date is modelled as the string
that str() renders it to. -/
def extractValue (f : DocField) : Option String :=
  match f.value_string with
  | some s => some s
  | none =>
    match f.value_date with
    | some d => some d
    | none =>
      match f.content with
      | some c => some c
      | none => none

/-- Python dict assignment d[k] = v: if the key exists its value is replaced in
place (position preserved), otherwise the pair is appended. -/
def setKey (m : List (String × FieldResult)) (k : String) (v : FieldResult) :
    List (String × FieldResult) :=
  if (m.map Prod.fst).contains k then
    m.map (fun p => if p.1 = k then (k, v) else p)
  else
    m ++ [(k, v)]

/-- The inner loop of lines 154-171: for each (api_field, display_field) of
field_mapping, if api_field is in fields, overwrite display_field with the
extracted value and the source confidence. -/
def applyMapping (data : List (String × FieldResult))
    (fields : List (String × DocField)) : List (String × FieldResult) :=
  field_mapping.foldl
    (fun d pair =>
      match fields.lookup pair.1 with
      | some f => setKey d pair.2 ⟨extractValue f, f.confidence⟩
      | none => d)
    data

/-- The successful body of process_invoice, lines 132-175: defaults, then the
loop over result.documents. -/
def process_invoice_result (r : AnalyzeResult) : List (String × FieldResult) :=
  r.documents.foldl (fun d doc => applyMapping d doc.fields) initData

/-- Exceptions that reach the outer handler of process_document: a plain
exception carrying its message, or an HTTPException carrying status and detail. -/
inductive Exn where
  | generic (msg : String)
  | http (status : Nat) (detail : String)
deriving Repr, DecidableEq

/-- Python str() of such an exception.  A plain exception renders as its
message; a Starlette HTTPException renders as "{status_code}: {detail}". -/
def pyStr : Exn → String
  | .generic m => m
  | .http s d => toString s ++ ": " ++ d

/-- process_invoice, lines 113-179: the recognition call is external, so its
outcome (a result, or an exception message) is the input; on failure the code
raises HTTPException(status_code=500, detail=str(e)). -/
def process_invoice (recognition : Except String AnalyzeResult) :
    Except Exn (List (String × FieldResult)) :=
  match recognition with
  | .ok r => .ok (process_invoice_result r)
  | .error e => .error (.http 500 e)

/-- Outcome of the external rendering library on the uploaded bytes:
the fitz import may fail, fitz.open may raise, or the document opens with a
list of pages, where each entry is the outcome of rasterizing and
base64-encoding that page (ok thumbnail, or an internal exception). -/
inductive RenderOutcome where
  | importError (msg : String)
  | openError (msg : String)
  | pages (rendered : List (Except String String))
deriving Repr

/-- extract_first_page, lines 59-111: every failure path of the inner _extract
function (import error, open error, zero pages, any exception while rendering
page 0) returns None; success returns the base64 thumbnail of page 0.
The function is total: no outcome escapes as an exception. -/
def extract_first_page : RenderOutcome → Option String
  | .importError _ => none
  | .openError _ => none
  | .pages [] => none
  | .pages (Except.error _ :: _) => none
  | .pages (Except.ok t :: _) => some t

/-- True exactly on the rendering-side failure modes enumerated by the code:
missing library, corrupt or unsupported input, zero pages, or an internal
exception while rendering the first page. -/
def renderFailed : RenderOutcome → Bool
  | .importError _ => true
  | .openError _ => true
  | .pages [] => true
  | .pages (Except.error _ :: _) => true
  | .pages (Except.ok _ :: _) => false

/-- Parsed JSON values, the image of json.loads. -/
inductive Json where
  | null
  | bool (b : Bool)
  | num (n : Rat)
  | str (s : String)
  | arr (elems : List Json)
  | obj (entries : List (String × Json))

/-- The per-request environment: the filename, and the outcomes of the three
external effects the handler consumes — json.loads on the metadata string, the
recognition call on the file bytes, and the rendering library on the same
bytes.  Two requests with identical file content, filename and metadata give
identical environments. -/
structure RequestEnv where
  filename : String
  parse : Except String Json
  recognition : Except String AnalyzeResult
  render : RenderOutcome

/-- The response envelope of lines 207-212. -/
structure ResponseEnvelope where
  filename : String
  extracted_data : List (String × FieldResult)
  thumbnail : Option String
  metadata : Json

/-- What the endpoint sends: a JSON response with a status code, or an
HTTPException turned into an error body carrying its detail string. -/
inductive HTTPResult where
  | ok (status : Nat) (resp : ResponseEnvelope)
  | error (status : Nat) (detail : String)

/-- The try block of process_document, lines 188-221: parse the metadata
(json.loads raises on bad JSON), run extraction (whose HTTPException propagates
through asyncio.gather) and rendering (which never raises), then assemble the
envelope. -/
def process_document_body (env : RequestEnv) : Except Exn ResponseEnvelope :=
  match env.parse with
  | .error m => .error (.generic m)
  | .ok meta =>
    match process_invoice env.recognition with
    | .error e => .error e
    | .ok data =>
      .ok ⟨env.filename, data, extract_first_page env.render, meta⟩

set_option linter.unusedVariables false in
/-- process_document, lines 181-225: the token form field is accepted and never
used.  A successful body returns HTTP 200 with the envelope; any exception is
caught by the outer handler and re-raised as HTTPException(500, str(e)). -/
def process_document (token : String) (env : RequestEnv) : HTTPResult :=
  match process_document_body env with
  | .ok resp => .ok 200 resp
  | .error e => .error 500 (pyStr e)

/-- The four output keys in insertion order. -/
def outputKeys : List String :=
  ["Document Type", "PV Number", "Supplier or Company", "Date Prepared"]

/-- The field, if any, that the document loop leaves in charge of a native key:
the last document whose field dictionary contains it. -/
def lastFieldIn (docs : List AnalyzedDocument) (api : String) : Option DocField :=
  docs.foldl
    (fun acc doc =>
      match List.lookup api doc.fields with
      | some f => some f
      | none => acc)
    none

section AssocLemmas

@[simp]
theorem lookup_cons (k a : String) (b : FieldResult) (ps : List (String × FieldResult)) :
    List.lookup k ((a, b) :: ps) = if k = a then some b else List.lookup k ps := by
  cases hkb : k == a with
  | true =>
    have hk : k = a := by simpa using hkb
    simp [List.lookup, hkb, hk]
  | false =>
    have hk : ¬k = a := by simpa using hkb
    simp [List.lookup, hkb, hk]

theorem lookup_map_set (m : List (String × FieldResult)) (k : String)
    (v : FieldResult) (h : k ∈ m.map Prod.fst) :
    List.lookup k (m.map fun p => if p.1 = k then (k, v) else p) = some v := by
  induction m with
  | nil => simp at h
  | cons p ps ih =>
    rcases p with ⟨a, b⟩
    by_cases hp : a = k
    · subst hp
      simp
    · have hk : ¬k = a := fun hc => hp hc.symm
      rw [List.map_cons] at h
      rcases List.mem_cons.mp h with h | h
      · exact absurd h hk
      · simp [hp, hk]
        exact ih h

theorem lookup_append_absent (m : List (String × FieldResult)) (k : String)
    (v : FieldResult) (h : ¬k ∈ m.map Prod.fst) :
    List.lookup k (m ++ [(k, v)]) = some v := by
  induction m with
  | nil => simp
  | cons p ps ih =>
    rcases p with ⟨a, b⟩
    rw [List.map_cons] at h
    have h1 : ¬k = a := fun hc => h (hc ▸ List.mem_cons_self _ _)
    have h2 : ¬k ∈ ps.map Prod.fst := fun hm => h (List.mem_cons_of_mem _ hm)
    simp [h1]
    exact ih h2

theorem lookup_setKey_self (m : List (String × FieldResult)) (k : String)
    (v : FieldResult) : List.lookup k (setKey m k v) = some v := by
  unfold setKey
  by_cases h : (m.map Prod.fst).contains k = true
  · rw [if_pos h]
    exact lookup_map_set m k v (by simpa using h)
  · rw [if_neg h]
    exact lookup_append_absent m k v (by simpa using h)

theorem lookup_map_set_ne (m : List (String × FieldResult)) (k k' : String)
    (v : FieldResult) (h : k' ≠ k) :
    List.lookup k' (m.map fun p => if p.1 = k then (k, v) else p) =
      List.lookup k' m := by
  induction m with
  | nil => simp
  | cons p ps ih =>
    rcases p with ⟨a, b⟩
    by_cases hp : a = k
    · subst hp
      simp [h, ih]
    · simp [hp, ih]

theorem lookup_append_ne (m : List (String × FieldResult)) (k k' : String)
    (v : FieldResult) (h : k' ≠ k) :
    List.lookup k' (m ++ [(k, v)]) = List.lookup k' m := by
  induction m with
  | nil => simp [h]
  | cons p ps ih =>
    rcases p with ⟨a, b⟩
    by_cases hp : k' = a <;> simp [hp, ih]

theorem lookup_setKey_ne (m : List (String × FieldResult)) (k k' : String)
    (v : FieldResult) (h : k' ≠ k) :
    List.lookup k' (setKey m k v) = List.lookup k' m := by
  unfold setKey
  split
  · exact lookup_map_set_ne m k k' v h
  · exact lookup_append_ne m k k' v h

theorem keys_setKey (m : List (String × FieldResult)) (k : String)
    (v : FieldResult) (h : (m.map Prod.fst).contains k = true) :
    (setKey m k v).map Prod.fst = m.map Prod.fst := by
  unfold setKey
  rw [if_pos h, List.map_map]
  apply List.map_congr_left
  intro p _
  by_cases hp : p.1 = k <;> simp [hp]

end AssocLemmas

section MappingLemmas

/-- The display keys written by the field mapping are pairwise distinct from
each other and from Document Type, so one lookup after applyMapping is decided
by the single corresponding native field. -/
theorem lookup_applyMapping (d : List (String × FieldResult))
    (fields : List (String × DocField)) (api disp : String)
    (hmap : (api, disp) ∈ field_mapping) :
    List.lookup disp (applyMapping d fields) =
      match List.lookup api fields with
      | some f => some ⟨extractValue f, f.confidence⟩
      | none => List.lookup disp d := by
  have hmap' : (api = "InvoiceId" ∧ disp = "PV Number") ∨
      (api = "InvoiceDate" ∧ disp = "Date Prepared") ∨
      (api = "RemittanceAddressRecipient" ∧ disp = "Supplier or Company") := by
    simpa [field_mapping, Prod.ext_iff] using hmap
  unfold applyMapping field_mapping
  simp only [List.foldl]
  rcases hmap' with ⟨rfl, rfl⟩ | ⟨rfl, rfl⟩ | ⟨rfl, rfl⟩
  · cases h1 : List.lookup "InvoiceId" fields with
    | some f =>
      cases h2 : List.lookup "InvoiceDate" fields <;>
        cases h3 : List.lookup "RemittanceAddressRecipient" fields <;>
          simp [h1, h2, h3, lookup_setKey_self, lookup_setKey_ne]
    | none =>
      cases h2 : List.lookup "InvoiceDate" fields <;>
        cases h3 : List.lookup "RemittanceAddressRecipient" fields <;>
          simp [h1, h2, h3, lookup_setKey_ne]
  · cases h2 : List.lookup "InvoiceDate" fields with
    | some f =>
      cases h1 : List.lookup "InvoiceId" fields <;>
        cases h3 : List.lookup "RemittanceAddressRecipient" fields <;>
          simp [h1, h2, h3, lookup_setKey_self, lookup_setKey_ne]
    | none =>
      cases h1 : List.lookup "InvoiceId" fields <;>
        cases h3 : List.lookup "RemittanceAddressRecipient" fields <;>
          simp [h1, h2, h3, lookup_setKey_ne]
  · cases h3 : List.lookup "RemittanceAddressRecipient" fields with
    | some f =>
      cases h1 : List.lookup "InvoiceId" fields <;>
        cases h2 : List.lookup "InvoiceDate" fields <;>
          simp [h1, h2, h3, lookup_setKey_self, lookup_setKey_ne]
    | none =>
      cases h1 : List.lookup "InvoiceId" fields <;>
        cases h2 : List.lookup "InvoiceDate" fields <;>
          simp [h1, h2, h3, lookup_setKey_ne]

/-- applyMapping never touches the Document Type entry. -/
theorem lookup_applyMapping_docType (d : List (String × FieldResult))
    (fields : List (String × DocField)) :
    List.lookup "Document Type" (applyMapping d fields) =
      List.lookup "Document Type" d := by
  unfold applyMapping field_mapping
  simp only [List.foldl]
  cases h1 : List.lookup "InvoiceId" fields <;>
    cases h2 : List.lookup "InvoiceDate" fields <;>
      cases h3 : List.lookup "RemittanceAddressRecipient" fields <;>
        simp [h1, h2, h3, lookup_setKey_ne]

/-- applyMapping preserves the key list whenever it already holds the four
output keys. -/
theorem keys_applyMapping (d : List (String × FieldResult))
    (fields : List (String × DocField))
    (h : d.map Prod.fst = outputKeys) :
    (applyMapping d fields).map Prod.fst = outputKeys := by
  unfold applyMapping field_mapping
  simp only [List.foldl]
  have step : ∀ (m : List (String × FieldResult)) (k : String) (v : FieldResult),
      m.map Prod.fst = outputKeys → k ∈ outputKeys →
      (setKey m k v).map Prod.fst = outputKeys := by
    intro m k v hm hk
    rw [keys_setKey m k v]
    · exact hm
    · rw [hm]
      simpa using hk
  cases h1 : List.lookup "InvoiceId" fields <;>
    cases h2 : List.lookup "InvoiceDate" fields <;>
      cases h3 : List.lookup "RemittanceAddressRecipient" fields <;>
        simp only [h1, h2, h3] <;>
          repeat first
            | exact h
            | refine step _ _ _ ?_ (by decide)

end MappingLemmas

section FoldLemmas

/-- Running the last-wins accumulator from any seed factors through its run
from none. -/
theorem pickFold_eq (api : String) :
    ∀ (docs : List AnalyzedDocument) (a : Option DocField),
      docs.foldl
          (fun acc doc =>
            match List.lookup api doc.fields with
            | some f => some f
            | none => acc)
          a
        = match lastFieldIn docs api with
          | some f => some f
          | none => a := by
  intro docs
  induction docs with
  | nil => intro a; simp [lastFieldIn]
  | cons doc rest ih =>
    intro a
    have hcons : ∀ (b : Option DocField),
        lastFieldIn (doc :: rest) api
          = match lastFieldIn rest api with
            | some f => some f
            | none =>
              match List.lookup api doc.fields with
              | some f => some f
              | none => none := by
      intro _
      show List.foldl _ _ rest = _
      rw [ih]
    rw [List.foldl_cons, ih, hcons none]
    cases hrest : lastFieldIn rest api <;>
      cases hdoc : List.lookup api doc.fields <;> simp [hdoc]

/-- The value of a mapped display key after folding any document list: the last
document containing the native field decides it, and if none does, the seed
dictionary is untouched at that key. -/
theorem lookup_docsFold (api disp : String)
    (hmap : (api, disp) ∈ field_mapping) :
    ∀ (docs : List AnalyzedDocument) (d : List (String × FieldResult)),
      List.lookup disp
          (docs.foldl (fun d doc => applyMapping d doc.fields) d)
        = match lastFieldIn docs api with
          | some f => some ⟨extractValue f, f.confidence⟩
          | none => List.lookup disp d := by
  intro docs
  induction docs with
  | nil => intro d; simp [lastFieldIn]
  | cons doc rest ih =>
    intro d
    rw [List.foldl_cons, ih]
    have hcons : lastFieldIn (doc :: rest) api
        = match lastFieldIn rest api with
          | some f => some f
          | none =>
            match List.lookup api doc.fields with
            | some f => some f
            | none => none := by
      show List.foldl _ _ rest = _
      rw [pickFold_eq]
    rw [hcons, lookup_applyMapping d doc.fields api disp hmap]
    cases hrest : lastFieldIn rest api <;>
      cases hdoc : List.lookup api doc.fields <;> simp [hdoc]

/-- The Document Type entry survives the whole document fold. -/
theorem lookup_docsFold_docType :
    ∀ (docs : List AnalyzedDocument) (d : List (String × FieldResult)),
      List.lookup "Document Type"
          (docs.foldl (fun d doc => applyMapping d doc.fields) d)
        = List.lookup "Document Type" d := by
  intro docs
  induction docs with
  | nil => intro d; simp
  | cons doc rest ih =>
    intro d
    rw [List.foldl_cons, ih, lookup_applyMapping_docType]

/-- The key list survives the whole document fold. -/
theorem keys_docsFold :
    ∀ (docs : List AnalyzedDocument) (d : List (String × FieldResult)),
      d.map Prod.fst = outputKeys →
      (docs.foldl (fun d doc => applyMapping d doc.fields) d).map Prod.fst
        = outputKeys := by
  intro docs
  induction docs with
  | nil => intro d h; simpa using h
  | cons doc rest ih =>
    intro d h
    rw [List.foldl_cons]
    exact ih _ (keys_applyMapping d doc.fields h)

/-- If no document carries the native field, the last-wins accumulator is empty. -/
theorem lastFieldIn_eq_none (api : String) (docs : List AnalyzedDocument)
    (h : ∀ doc ∈ docs, List.lookup api doc.fields = none) :
    lastFieldIn docs api = none := by
  induction docs with
  | nil => simp [lastFieldIn]
  | cons doc rest ih =>
    have hcons : lastFieldIn (doc :: rest) api
        = match lastFieldIn rest api with
          | some f => some f
          | none =>
            match List.lookup api doc.fields with
            | some f => some f
            | none => none := by
      show List.foldl _ _ rest = _
      rw [pickFold_eq]
    rw [hcons, ih (fun d hd => h d (List.mem_cons_of_mem _ hd)),
      h doc (List.mem_cons_self _ _)]

end FoldLemmas

section ClaimTheorems

/-- Claim C1: for every recognition result F (including empty, missing, or
arbitrary field sets), the extracted data mapping returned by process_invoice
contains exactly the four keys Document Type, PV Number, Supplier or Company
and Date Prepared — never more, never fewer. -/
theorem claim_C1_exactly_four_keys (rec : Except String AnalyzeResult)
    (data : List (String × FieldResult))
    (h : process_invoice rec = .ok data) :
    data.map Prod.fst = outputKeys := by
  cases rec with
  | error e => exact absurd h (by simp [process_invoice])
  | ok r =>
    have hd : data = process_invoice_result r := by
      simpa [process_invoice] using h.symm
    rw [hd]
    exact keys_docsFold r.documents initData rfl

/-- Mapped field carrying every representation, for concrete evaluation. -/
def fieldEx : DocField :=
  ⟨some "PV-17", some "2024-01-02", some "PV 17", mkRat 9 10⟩

/-- One-document result carrying fieldEx under InvoiceId. -/
def rEx : AnalyzeResult := ⟨[⟨[("InvoiceId", fieldEx)]⟩]⟩

theorem claim_C1_witness :
    process_invoice (.ok rEx) = .ok (process_invoice_result rEx) ∧
    (process_invoice_result rEx).map Prod.fst = outputKeys :=
  ⟨rfl, claim_C1_exactly_four_keys (.ok rEx) (process_invoice_result rEx) rfl⟩

/-- Claim C2: the mapped source field that decides an output key (its last
occurrence in the result sequence) determines the output pair: the value
follows the priority order typed string, then typed date rendered as a string,
then raw recognized content, then null, and the confidence is copied verbatim
from that source field. -/
theorem claim_C2_value_priority (r : AnalyzeResult) (api disp : String)
    (f : DocField) (hmap : (api, disp) ∈ field_mapping)
    (hlast : lastFieldIn r.documents api = some f) :
    List.lookup disp (process_invoice_result r)
        = some ⟨extractValue f, f.confidence⟩ ∧
      (∀ s, f.value_string = some s → extractValue f = some s) ∧
      (∀ d, f.value_string = none → f.value_date = some d →
        extractValue f = some d) ∧
      (f.value_string = none → f.value_date = none →
        extractValue f = f.content) := by
  refine ⟨?_, ?_, ?_, ?_⟩
  · unfold process_invoice_result
    rw [lookup_docsFold api disp hmap r.documents initData, hlast]
  · intro s hs
    simp [extractValue, hs]
  · intro d hs hd
    simp [extractValue, hs, hd]
  · intro hs hd
    cases hc : f.content <;> simp [extractValue, hs, hd, hc]

theorem claim_C2_witness :
    ("InvoiceId", "PV Number") ∈ field_mapping ∧
    lastFieldIn rEx.documents "InvoiceId" = some fieldEx ∧
    List.lookup "PV Number" (process_invoice_result rEx)
      = some ⟨some "PV-17", mkRat 9 10⟩ := by
  refine ⟨by decide, by decide, ?_⟩
  have h := claim_C2_value_priority rEx "InvoiceId" "PV Number" fieldEx
    (by decide) (by decide)
  exact h.1.trans (by decide)

/-- Claim C3: if a mapped source field is absent from every document of the
result, the corresponding output key is still present and holds value null
with confidence 0.0. -/
theorem claim_C3_missing_field_defaults (r : AnalyzeResult) (api disp : String)
    (hmap : (api, disp) ∈ field_mapping)
    (habsent : ∀ doc ∈ r.documents, List.lookup api doc.fields = none) :
    List.lookup disp (process_invoice_result r) = some ⟨none, 0⟩ := by
  unfold process_invoice_result
  rw [lookup_docsFold api disp hmap r.documents initData,
    lastFieldIn_eq_none api r.documents habsent]
  have hdisp : disp = "PV Number" ∨ disp = "Date Prepared" ∨
      disp = "Supplier or Company" := by
    have h := hmap
    simp [field_mapping, Prod.ext_iff] at h
    rcases h with ⟨-, h⟩ | ⟨-, h⟩ | ⟨-, h⟩ <;> simp [h]
  rcases hdisp with rfl | rfl | rfl <;> decide

/-- Result whose single document has an empty field dictionary. -/
def rEmpty : AnalyzeResult := ⟨[⟨[]⟩]⟩

theorem claim_C3_witness :
    ("InvoiceDate", "Date Prepared") ∈ field_mapping ∧
    (∀ doc ∈ rEmpty.documents, List.lookup "InvoiceDate" doc.fields = none) ∧
    List.lookup "Date Prepared" (process_invoice_result rEmpty)
      = some ⟨none, 0⟩ :=
  ⟨by decide, by decide,
    claim_C3_missing_field_defaults rEmpty "InvoiceDate" "Date Prepared"
      (by decide) (by decide)⟩

/-- Claim C4: whatever the input bytes, filename and recognition result, a
successful response maps Document Type to value Payable Voucher with
confidence 1.0. -/
theorem claim_C4_document_type_constant (token : String) (env : RequestEnv)
    (s : Nat) (resp : ResponseEnvelope)
    (h : process_document token env = .ok s resp) :
    List.lookup "Document Type" resp.extracted_data
      = some ⟨some "Payable Voucher", 1⟩ := by
  unfold process_document process_document_body process_invoice at h
  cases hp : env.parse with
  | error m =>
    rw [hp] at h
    exact absurd h (by simp)
  | ok meta =>
    cases hr : env.recognition with
    | error e =>
      rw [hp, hr] at h
      exact absurd h (by simp)
    | ok r =>
      rw [hp, hr] at h
      cases h
      show List.lookup "Document Type" (process_invoice_result r) = _
      unfold process_invoice_result
      rw [lookup_docsFold_docType r.documents initData]
      rfl

/-- A fully successful request environment for concrete evaluation. -/
def envEx : RequestEnv :=
  ⟨"inv.pdf", .ok (Json.obj []), .ok rEx, .pages [.ok "thumbB64"]⟩

/-- The envelope envEx produces. -/
def envelopeEx : ResponseEnvelope :=
  ⟨"inv.pdf", process_invoice_result rEx, some "thumbB64", Json.obj []⟩

theorem claim_C4_witness :
    process_document "tok" envEx = .ok 200 envelopeEx ∧
    List.lookup "Document Type" envelopeEx.extracted_data
      = some ⟨some "Payable Voucher", 1⟩ :=
  ⟨rfl, claim_C4_document_type_constant "tok" envEx 200 envelopeEx rfl⟩

/-- Claim C5: every rendering-side failure (missing library, corrupt input,
zero pages, internal exception) makes extract_first_page return None rather
than raise, and an otherwise successful request still returns HTTP 200 with
the extracted data and a null thumbnail. -/
theorem claim_C5_render_failure_degrades (token : String) (env : RequestEnv)
    (meta : Json) (r : AnalyzeResult)
    (hp : env.parse = .ok meta) (hr : env.recognition = .ok r)
    (hfail : renderFailed env.render = true) :
    extract_first_page env.render = none ∧
    process_document token env
      = .ok 200 ⟨env.filename, process_invoice_result r, none, meta⟩ := by
  have hnone : extract_first_page env.render = none := by
    cases hre : env.render with
    | importError m => rfl
    | openError m => rfl
    | pages l =>
      cases l with
      | nil => rfl
      | cons p rest =>
        cases p with
        | ok t =>
          rw [hre] at hfail
          exact absurd hfail (by simp [renderFailed])
        | error m => rfl
  refine ⟨hnone, ?_⟩
  unfold process_document process_document_body process_invoice
  rw [hp, hr]
  simp [hnone]

/-- A request whose rendering opened a document with zero pages. -/
def envZeroPages : RequestEnv :=
  ⟨"inv.pdf", .ok (Json.obj []), .ok rEx, .pages []⟩

theorem claim_C5_witness :
    envZeroPages.parse = .ok (Json.obj []) ∧
    envZeroPages.recognition = .ok rEx ∧
    renderFailed envZeroPages.render = true ∧
    (extract_first_page envZeroPages.render = none ∧
      process_document "tok" envZeroPages
        = .ok 200 ⟨"inv.pdf", process_invoice_result rEx, none, Json.obj []⟩) :=
  ⟨rfl, rfl, rfl,
    claim_C5_render_failure_degrades "tok" envZeroPages (Json.obj []) rEx
      rfl rfl rfl⟩

/-- Claim C6: when the metadata string is not valid JSON, or the recognition
call raises, the endpoint returns HTTP 500 whose error detail carries the
original error text (for the recognition path, after the status prefix the
outer re-raise adds), and no response envelope is produced. -/
theorem claim_C6_failure_returns_500 (token : String) (env : RequestEnv) :
    (∀ m, env.parse = .error m →
      process_document token env = .error 500 m) ∧
    (∀ meta m, env.parse = .ok meta → env.recognition = .error m →
      ∃ pre, process_document token env = .error 500 (pre ++ m)) := by
  constructor
  · intro m hm
    unfold process_document process_document_body
    rw [hm]
    rfl
  · intro meta m hmeta hrec
    refine ⟨toString 500 ++ ": ", ?_⟩
    unfold process_document process_document_body process_invoice
    rw [hmeta, hrec]
    rfl

/-- A request whose metadata string failed to parse. -/
def envParseErr : RequestEnv :=
  ⟨"inv.pdf", .error "Expecting value", .ok rEx, .pages [.ok "thumbB64"]⟩

/-- A request whose recognition call raised. -/
def envRecErr : RequestEnv :=
  ⟨"inv.pdf", .ok (Json.obj []), .error "InvalidRequest", .pages [.ok "thumbB64"]⟩

theorem claim_C6_witness :
    process_document "tok" envParseErr = .error 500 "Expecting value" ∧
    ∃ pre, process_document "tok" envRecErr
      = .error 500 (pre ++ "InvalidRequest") :=
  ⟨(claim_C6_failure_returns_500 "tok" envParseErr).1 "Expecting value" rfl,
    (claim_C6_failure_returns_500 "tok" envRecErr).2 (Json.obj [])
      "InvalidRequest" rfl rfl⟩

/-- Claim C8: whenever the metadata string parses, the metadata field of a
successful response envelope is exactly the parsed value, unmodified. -/
theorem claim_C8_metadata_passthrough (token : String) (env : RequestEnv)
    (meta : Json) (s : Nat) (resp : ResponseEnvelope)
    (hp : env.parse = .ok meta)
    (h : process_document token env = .ok s resp) :
    resp.metadata = meta := by
  unfold process_document process_document_body process_invoice at h
  rw [hp] at h
  cases hr : env.recognition with
  | error e =>
    rw [hr] at h
    exact absurd h (by simp)
  | ok r =>
    rw [hr] at h
    cases h
    rfl

theorem claim_C8_witness :
    envEx.parse = .ok (Json.obj []) ∧
    process_document "tok" envEx = .ok 200 envelopeEx ∧
    envelopeEx.metadata = Json.obj [] :=
  ⟨rfl, rfl,
    claim_C8_metadata_passthrough "tok" envEx (Json.obj []) 200 envelopeEx
      rfl rfl⟩

/-- Claim C9: the token form field influences nothing — two requests identical
except for token produce identical responses. -/
theorem claim_C9_token_independent (t1 t2 : String) (env : RequestEnv) :
    process_document t1 env = process_document t2 env := rfl

/-- Claim C10: each mapped output key is decided by the last document of the
result sequence containing the corresponding source field; later documents
overwrite earlier ones, and a document lacking the field leaves the previous
value in place; if no document carries it, the default entry survives. -/
theorem claim_C10_last_document_wins (r : AnalyzeResult) (api disp : String)
    (hmap : (api, disp) ∈ field_mapping) :
    List.lookup disp (process_invoice_result r)
      = match lastFieldIn r.documents api with
        | some f => some ⟨extractValue f, f.confidence⟩
        | none => List.lookup disp initData := by
  unfold process_invoice_result
  exact lookup_docsFold api disp hmap r.documents initData

/-- Three documents: InvoiceId set to A, overwritten by B, then a document
without the field that leaves B in place. -/
def rOverwrite : AnalyzeResult :=
  ⟨[⟨[("InvoiceId", ⟨some "A", none, none, mkRat 1 2⟩)]⟩,
    ⟨[("InvoiceId", ⟨some "B", none, none, mkRat 3 4⟩)]⟩,
    ⟨[]⟩]⟩

theorem claim_C10_witness :
    ("InvoiceId", "PV Number") ∈ field_mapping ∧
    List.lookup "PV Number" (process_invoice_result rOverwrite)
      = some ⟨some "B", mkRat 3 4⟩ := by
  refine ⟨by decide, ?_⟩
  have h := claim_C10_last_document_wins rOverwrite "InvoiceId" "PV Number"
    (by decide)
  exact h.trans (by decide)

end ClaimTheorems

end InvoiceBackend
